import Mathlib

/-!
Verification of the orbital-kinematics core of the Hohmann transfer
simulation (files `Hohmann_Rocket_Sim.py` and
`Hohmann_rocket_angle_updated.py`).  The numeric pipeline is embedded
over the real numbers: every NumPy array indexed by the 1000-sample time
grid becomes a function from sample index to a real (or a pair of
reals), and `np.argmin` becomes `argminIdx`, the first index of the
minimum of a list.
-/

namespace Hohmann

open Real

/-- Models `np.argmin`: the first index at which a list attains its
minimum (NumPy documents argmin as returning the first occurrence of
the minimum value).  On the empty list it is 0, mirroring no valid
call. -/
def argminIdx {α : Type} [LinearOrder α] : List α → ℕ
  | [] => 0
  | v :: rest =>
    if rest.getD (argminIdx rest) v < v then argminIdx rest + 1 else 0

/-- Euclidean distance between two planar points, as computed by
`np.sqrt((x1-x2)**2 + (y1-y2)**2)` in the sources. -/
noncomputable def dist2 (p q : ℝ × ℝ) : ℝ :=
  Real.sqrt ((p.1 - q.1) ^ 2 + (p.2 - q.2) ^ 2)

/-- Error vocabulary of the specified `findClosestApproach` operation. -/
inductive KinematicsError : Type
  | emptySequenceError : KinematicsError
  | lengthMismatchError : KinematicsError
deriving DecidableEq

/-- Modelled from the spec: the spec's `findClosestApproach` operation
with its eager input validation (`EmptySequenceError` on an empty
input, `LengthMismatchError` on differing lengths).  The validation is
absent from the source files, which only apply `np.argmin` inline to
the per-sample distance array of two equal-length nonempty arrays
(line 54 resp. 55); the argmin itself is taken from that source line. -/
noncomputable def findClosestApproach (xs ys : List (ℝ × ℝ)) :
    Except KinematicsError ℕ :=
  if xs.length = 0 ∨ ys.length = 0 then .error .emptySequenceError
  else if xs.length ≠ ys.length then .error .lengthMismatchError
  else .ok (argminIdx (List.zipWith dist2 xs ys))

/-- Composition of the rocket trajectory, as in the per-frame branch of
`animate` and the loop building `rocket_distances`: transfer positions
strictly before the intercept index, target positions from it on. -/
def composeTrajectory (transfer target : List (ℝ × ℝ)) (idx : ℕ) :
    List (ℝ × ℝ) :=
  (List.range target.length).map fun i =>
    if i < idx then transfer.getD i (0, 0) else target.getD i (0, 0)

/-- Kepler third-law period, `2 * np.pi * np.sqrt(r**3 / (G * M))`
(lines 26-28 of both sources), abstracted over the radius and central
mass as in the spec's `computePeriod`. -/
noncomputable def computePeriod (r M : ℝ) : ℝ :=
  2 * π * Real.sqrt (r ^ 3 / ((6.67430e-11 : ℝ) * M))

/-- Position on a circular orbit at time `t`:
`theta = (2*np.pi/T)*t + phase`, point `(r*cos theta, r*sin theta)`
(lines 36-44 of the updated source). -/
noncomputable def circularPoint (r T phase t : ℝ) : ℝ × ℝ :=
  (r * Real.cos (2 * π / T * t + phase), r * Real.sin (2 * π / T * t + phase))

/-- Position series of a circular orbit over a time grid, the spec's
`computeCircularPositions`. -/
noncomputable def computeCircularPositions (r T phase : ℝ)
    (grid : List ℝ) : List (ℝ × ℝ) :=
  grid.map (circularPoint r T phase)

/-- Transfer-arc position at time `t`, from lines 46-49:
`a = (r_inner + r_outer)/2`, `theta = sqrt(G*M/a**3)*t`, point
`(a*(cos theta - 1), a*sin theta)`. -/
noncomputable def transferPoint (ri ro M t : ℝ) : ℝ × ℝ :=
  ((ri + ro) / 2 *
      (Real.cos (Real.sqrt ((6.67430e-11 : ℝ) * M / ((ri + ro) / 2) ^ 3) * t) - 1),
    (ri + ro) / 2 *
      Real.sin (Real.sqrt ((6.67430e-11 : ℝ) * M / ((ri + ro) / 2) ^ 3) * t))

/-- Transfer-arc position series over a time grid, the spec's
`computeTransferArc`. -/
noncomputable def computeTransferArc (ri ro M : ℝ) (grid : List ℝ) :
    List (ℝ × ℝ) :=
  grid.map (transferPoint ri ro M)

/-- Models `np.arctan2 y x` over the reals (signed zeros, which do not
exist in `ℝ`, are not modelled). -/
noncomputable def arctan2 (y x : ℝ) : ℝ :=
  if 0 < x then Real.arctan (y / x)
  else if x < 0 then
    (if 0 ≤ y then Real.arctan (y / x) + π else Real.arctan (y / x) - π)
  else if 0 < y then π / 2
  else if y < 0 then -π / 2
  else 0

/-- Models `np.deg2rad`. -/
noncomputable def deg2rad (d : ℝ) : ℝ := d * π / 180

/-- Gravitational constant, line 19/20 of the sources. -/
noncomputable def grav : ℝ := 6.67430e-11

/-- Mass of the Sun, line 20/21. -/
noncomputable def M_sun : ℝ := 1.989e30

/-- Radius of Earth's orbit, line 22/23. -/
noncomputable def r_earth_orbit : ℝ := 1.496e11

/-- Radius of Mars' orbit, line 23/24. -/
noncomputable def r_mars_orbit : ℝ := 2.279e11

/-- Earth's orbital period, line 26/27. -/
noncomputable def T_earth : ℝ :=
  2 * π * Real.sqrt (r_earth_orbit ^ 3 / (grav * M_sun))

/-- Mars' orbital period, line 27/28. -/
noncomputable def T_mars : ℝ :=
  2 * π * Real.sqrt (r_mars_orbit ^ 3 / (grav * M_sun))

/-- Semi-major axis of the transfer orbit, line 30/31. -/
noncomputable def a_transfer : ℝ := (r_earth_orbit + r_mars_orbit) / 2

/-- Sample `i` of `np.linspace(0, T_mars, 1000)` (line 33/34). -/
noncomputable def tSample (i : ℕ) : ℝ := T_mars * i / 999

/-- Earth angle at sample `i`, line 36/37. -/
noncomputable def theta_earth (i : ℕ) : ℝ := 2 * π / T_earth * tSample i

/-- Earth x-coordinate at sample `i`, line 37/38. -/
noncomputable def x_earth (i : ℕ) : ℝ := r_earth_orbit * Real.cos (theta_earth i)

/-- Earth y-coordinate at sample `i`, line 38/39. -/
noncomputable def y_earth (i : ℕ) : ℝ := r_earth_orbit * Real.sin (theta_earth i)

/-- Mars angle at sample `i` in `Hohmann_rocket_angle_updated.py`
(line 42): phase offset 44.75 degrees converted to radians. -/
noncomputable def theta_mars (i : ℕ) : ℝ :=
  2 * π / T_mars * tSample i + deg2rad 44.75

/-- Mars x-coordinate at sample `i`, line 43. -/
noncomputable def x_mars (i : ℕ) : ℝ := r_mars_orbit * Real.cos (theta_mars i)

/-- Mars y-coordinate at sample `i`, line 44. -/
noncomputable def y_mars (i : ℕ) : ℝ := r_mars_orbit * Real.sin (theta_mars i)

/-- Transfer angle at sample `i`, line 46/47. -/
noncomputable def theta_transfer (i : ℕ) : ℝ :=
  Real.sqrt (grav * M_sun / a_transfer ^ 3) * tSample i

/-- Transfer x-coordinate at sample `i` as written in
`Hohmann_rocket_angle_updated.py` line 48:
`a_transfer * np.cos(theta_transfer) - a_transfer`. -/
noncomputable def x_transfer (i : ℕ) : ℝ :=
  a_transfer * Real.cos (theta_transfer i) - a_transfer

/-- Transfer y-coordinate at sample `i`, line 49. -/
noncomputable def y_transfer (i : ℕ) : ℝ := a_transfer * Real.sin (theta_transfer i)

/-- Transfer x-coordinate as written in `Hohmann_Rocket_Sim.py` line 47:
`a_transfer * (np.cos(theta_transfer) - 1)`. -/
noncomputable def x_transfer_sim (i : ℕ) : ℝ :=
  a_transfer * (Real.cos (theta_transfer i) - 1)

/-- Transfer y-coordinate as written in `Hohmann_Rocket_Sim.py` line 48. -/
noncomputable def y_transfer_sim (i : ℕ) : ℝ :=
  a_transfer * Real.sin (theta_transfer i)

/-- Rocket-to-Mars separation at sample `i`, line 51/52:
`np.sqrt((x_transfer + x_earth[0] - x_mars)**2 + (y_transfer + y_earth[0] - y_mars)**2)`. -/
noncomputable def distances_to_mars (i : ℕ) : ℝ :=
  Real.sqrt ((x_transfer i + x_earth 0 - x_mars i) ^ 2 +
    (y_transfer i + y_earth 0 - y_mars i) ^ 2)

/-- Shorthand for `sqrt((r_mars_orbit/a_transfer)^3)`, the factor by
which the transfer angle advances per unit of `2*pi*i/999`. -/
noncomputable def sQ : ℝ := Real.sqrt (94694109112 / 53796109375)

/-- Shorthand for `sqrt((r_mars_orbit/r_earth_orbit)^3) = T_mars/T_earth`. -/
noncomputable def sE : ℝ := Real.sqrt (11836763639 / 3348071936)

/-- The separation array as a list over the 1000-sample grid. -/
noncomputable def distList : List ℝ :=
  (List.range 1000).map distances_to_mars

/-- Intercept index, line 54/55: `np.argmin(distances_to_mars)`. -/
noncomputable def intercept_idx : ℕ := argminIdx distList

/-- Transfer positions translated into the shared frame by the inner
body's initial position, as used in lines 52 and 100-101. -/
noncomputable def transferShared : List (ℝ × ℝ) :=
  (List.range 1000).map fun i =>
    (x_transfer i + x_earth 0, y_transfer i + y_earth 0)

/-- Mars position series over the grid. -/
noncomputable def marsPositions : List (ℝ × ℝ) :=
  (List.range 1000).map fun i => (x_mars i, y_mars i)

/-- Rocket position in frame `i` of `animate`
(`Hohmann_rocket_angle_updated.py` lines 99-104). -/
noncomputable def rocketPos (i : ℕ) : ℝ × ℝ :=
  if i < intercept_idx then (x_transfer i + x_earth 0, y_transfer i + y_earth 0)
  else (x_mars i, y_mars i)

/-- Safe-indexing view of the frame-`i` selection of `animate`: the
option returned when the branch taken indexes its source array. -/
noncomputable def rocketPosOpt (i : ℕ) : Option (ℝ × ℝ) :=
  if i < intercept_idx then transferShared.get? i else marsPositions.get? i

/-- Bearing-angle telemetry of frame `i`, lines 111-113:
`np.arctan2(dy, dx) * (180 / np.pi)` with rocket-minus-Earth
displacement. -/
noncomputable def animateAngle (i : ℕ) : ℝ :=
  arctan2 ((rocketPos i).2 - y_earth i) ((rocketPos i).1 - x_earth i) * (180 / π)

/-- Distance telemetry of frame `i`, line 114: `np.sqrt(dx**2 + dy**2)`. -/
noncomputable def animateDistance (i : ℕ) : ℝ :=
  Real.sqrt (((rocketPos i).1 - x_earth i) ^ 2 + ((rocketPos i).2 - y_earth i) ^ 2)

/-- Element `i` of the `angles` array (line 125): bearing of the RAW
transfer trajectory (translated) minus Earth, for every sample. -/
noncomputable def anglesAt (i : ℕ) : ℝ :=
  arctan2 (y_transfer i + y_earth 0 - y_earth i)
    (x_transfer i + x_earth 0 - x_earth i) * (180 / π)

/-- Element `i` of the `rocket_distances` list built by the loop of
lines 127-139, which recomputes the argmin of the separation array
inline. -/
noncomputable def rocketDistancesAt (i : ℕ) : ℝ :=
  Real.sqrt
    (((if i < argminIdx distList then x_transfer i + x_earth 0 else x_mars i) -
        x_earth i) ^ 2 +
      ((if i < argminIdx distList then y_transfer i + y_earth 0 else y_mars i) -
        y_earth i) ^ 2)

theorem argminIdx_lt_length {α : Type} [LinearOrder α] :
    ∀ (l : List α), l ≠ [] → argminIdx l < l.length := by
  intro l
  induction l with
  | nil => intro h; exact absurd rfl h
  | cons v rest ih =>
    intro _
    by_cases hr : rest = []
    · subst hr
      simp [argminIdx]
    · have hlt := ih hr
      simp only [argminIdx, List.length_cons]
      split
      · omega
      · omega

theorem getD_eq_getD_of_lt {α : Type} (l : List α) (d d' : α) (n : ℕ)
    (h : n < l.length) : l.getD n d = l.getD n d' := by
  induction l generalizing n with
  | nil => simp at h
  | cons v rest ih =>
    cases n with
    | zero => simp
    | succ m =>
      simp only [List.getD_cons_succ]
      exact ih m (by simpa using h)

theorem argminIdx_getD_le {α : Type} [LinearOrder α] :
    ∀ (l : List α) (d : α) (j : ℕ), j < l.length →
      l.getD (argminIdx l) d ≤ l.getD j d := by
  intro l
  induction l with
  | nil => intro d j hj; simp at hj
  | cons v rest ih =>
    intro d j hj
    by_cases hr : rest = []
    · subst hr
      have hj0 : j = 0 := by simpa using Nat.lt_one_iff.mp (by simpa using hj)
      subst hj0
      simp [argminIdx]
    · have hlen := argminIdx_lt_length rest hr
      simp only [argminIdx]
      split
      · rename_i hbest
        rw [List.getD_cons_succ]
        cases j with
        | zero =>
          rw [List.getD_cons_zero]
          have h1 : rest.getD (argminIdx rest) d =
              rest.getD (argminIdx rest) v :=
            getD_eq_getD_of_lt rest d v _ hlen
          rw [h1]
          exact le_of_lt hbest
        | succ m =>
          rw [List.getD_cons_succ]
          exact ih d m (by simpa using hj)
      · rename_i hbest
        push_neg at hbest
        rw [List.getD_cons_zero]
        cases j with
        | zero => rw [List.getD_cons_zero]
        | succ m =>
          rw [List.getD_cons_succ]
          have h1 : rest.getD (argminIdx rest) v =
              rest.getD (argminIdx rest) d :=
            getD_eq_getD_of_lt rest v d _ hlen
          calc v ≤ rest.getD (argminIdx rest) v := hbest
            _ = rest.getD (argminIdx rest) d := h1
            _ ≤ rest.getD m d := ih d m (by simpa using hj)

theorem getD_argminIdx_lt {α : Type} [LinearOrder α] :
    ∀ (l : List α) (d : α) (j : ℕ), j < argminIdx l →
      l.getD (argminIdx l) d < l.getD j d := by
  intro l
  induction l with
  | nil => intro d j hj; simp [argminIdx] at hj
  | cons v rest ih =>
    intro d j hj
    by_cases hr : rest = []
    · subst hr
      simp [argminIdx] at hj
    · have hlen := argminIdx_lt_length rest hr
      simp only [argminIdx] at hj ⊢
      split
      · rename_i hbest
        rw [List.getD_cons_succ]
        rw [if_pos hbest] at hj
        cases j with
        | zero =>
          rw [List.getD_cons_zero]
          have h1 : rest.getD (argminIdx rest) d =
              rest.getD (argminIdx rest) v :=
            getD_eq_getD_of_lt rest d v _ hlen
          rw [h1]
          exact hbest
        | succ m =>
          rw [List.getD_cons_succ]
          exact ih d m (by omega)
      · rename_i hbest
        rw [if_neg hbest] at hj
        omega

theorem getD_range_map {β : Type} (n : ℕ) (f : ℕ → β) (i : ℕ) (d : β)
    (h : i < n) : ((List.range n).map f).getD i d = f i := by
  rw [List.getD_eq_getD_get?, List.get?_map, List.get?_range h]
  rfl

theorem zipWith_dist2_self :
    ∀ (xs : List (ℝ × ℝ)), List.zipWith dist2 xs xs =
      List.replicate xs.length (0 : ℝ) := by
  intro xs
  induction xs with
  | nil => rfl
  | cons p rest ih =>
    simp only [List.zipWith_cons_cons, List.length_cons, List.replicate_succ, ih,
      List.cons.injEq, and_true]
    simp [dist2]

theorem argminIdx_replicate (n : ℕ) (v : ℝ) :
    argminIdx (List.replicate n v) = 0 := by
  cases n with
  | zero => rfl
  | succ m =>
    simp only [List.replicate_succ, argminIdx]
    rw [if_neg]
    simp [List.getD]

theorem findClosestApproach_ok_iff (xs ys : List (ℝ × ℝ)) (k : ℕ) :
    findClosestApproach xs ys = .ok k ↔
      xs.length ≠ 0 ∧ ys.length ≠ 0 ∧ xs.length = ys.length ∧
        k = argminIdx (List.zipWith dist2 xs ys) := by
  unfold findClosestApproach
  split
  · rename_i h
    constructor
    · intro hk; cases hk
    · intro hk; tauto
  · rename_i h
    push_neg at h
    split
    · rename_i h2
      constructor
      · intro hk; cases hk
      · intro hk; tauto
    · rename_i h2
      push_neg at h2
      constructor
      · intro hk
        refine ⟨h.1, h.2, h2, ?_⟩
        cases hk
        rfl
      · intro hk
        rw [hk.2.2.2]

/-- C6: for every radius `r > 0` and central mass `M > 0`,
`computePeriod r M = 2*pi*sqrt(r^3/(G*M))` is strictly positive, and it
scales as `r^1.5`: `computePeriod (4*r) M / computePeriod r M = 8`
(exactly, over the reals). -/
theorem computePeriod_pos_and_scaling (r M : ℝ) (hr : 0 < r) (hM : 0 < M) :
    0 < computePeriod r M ∧
      computePeriod (4 * r) M / computePeriod r M = 8 := by
  have hx : 0 < r ^ 3 / ((6.67430e-11 : ℝ) * M) := by positivity
  have hs : 0 < Real.sqrt (r ^ 3 / ((6.67430e-11 : ℝ) * M)) :=
    Real.sqrt_pos.mpr hx
  have hpos : 0 < computePeriod r M := by
    unfold computePeriod
    have hπ := Real.pi_pos
    nlinarith [hs]
  refine ⟨hpos, ?_⟩
  have h64 : (4 * r) ^ 3 / ((6.67430e-11 : ℝ) * M) =
      8 ^ 2 * (r ^ 3 / ((6.67430e-11 : ℝ) * M)) := by ring
  have hsqrt : Real.sqrt ((4 * r) ^ 3 / ((6.67430e-11 : ℝ) * M)) =
      8 * Real.sqrt (r ^ 3 / ((6.67430e-11 : ℝ) * M)) := by
    rw [h64, Real.sqrt_mul (by norm_num : (0:ℝ) ≤ 8 ^ 2),
      Real.sqrt_sq (by norm_num : (0:ℝ) ≤ 8)]
  unfold computePeriod
  rw [hsqrt]
  have hπ := Real.pi_pos
  field_simp
  ring

/-- Witness for C6 at the concrete input `r = 1`, `M = 1`. -/
theorem computePeriod_pos_and_scaling_witness :
    (0:ℝ) < 1 ∧ (0:ℝ) < 1 ∧
      (0 < computePeriod 1 1 ∧ computePeriod (4 * 1) 1 / computePeriod 1 1 = 8) :=
  ⟨by norm_num, by norm_num,
    computePeriod_pos_and_scaling 1 1 (by norm_num) (by norm_num)⟩

/-- C7: every point produced by `computeCircularPositions` lies exactly
at distance `radius` from the origin (`x^2 + y^2 = r^2`, which over the
reals holds exactly, hence within any floating tolerance), and at
`t = 0` with phase offset `0` the computed point is `(r, 0)`. -/
theorem computeCircularPositions_on_circle (r T phase : ℝ)
    (grid : List ℝ) (hr : 0 < r) (hT : 0 < T) :
    (∀ p ∈ computeCircularPositions r T phase grid,
        p.1 ^ 2 + p.2 ^ 2 = r ^ 2) ∧
      circularPoint r T 0 0 = (r, 0) := by
  constructor
  · intro p hp
    simp only [computeCircularPositions, List.mem_map] at hp
    obtain ⟨t, _, rfl⟩ := hp
    simp only [circularPoint]
    have h := Real.sin_sq_add_cos_sq (2 * π / T * t + phase)
    nlinarith [h]
  · simp [circularPoint]

/-- Witness for C7 at `r = 1`, `T = 1`, `phase = 0`, grid `[0]`. -/
theorem computeCircularPositions_on_circle_witness :
    (0:ℝ) < 1 ∧
      ((∀ p ∈ computeCircularPositions 1 1 0 [0],
          p.1 ^ 2 + p.2 ^ 2 = (1:ℝ) ^ 2) ∧
        circularPoint 1 1 0 0 = (1, 0)) :=
  ⟨by norm_num,
    computeCircularPositions_on_circle 1 1 0 [0] (by norm_num) (by norm_num)⟩

/-- C8: for every pair of positive radii and positive central mass, the
transfer arc evaluated at `t = 0` is the point `(0, 0)`. -/
theorem computeTransferArc_origin (ri ro M : ℝ)
    (hri : 0 < ri) (hro : 0 < ro) (hM : 0 < M) :
    transferPoint ri ro M 0 = (0, 0) := by
  simp [transferPoint]

/-- Witness for C8 at `ri = ro = M = 1`. -/
theorem computeTransferArc_origin_witness :
    (0:ℝ) < 1 ∧ transferPoint 1 1 1 0 = (0, 0) :=
  ⟨by norm_num, computeTransferArc_origin 1 1 1 (by norm_num) (by norm_num) (by norm_num)⟩

/-- C9: the transfer arcs of the two source files agree pointwise:
`a*(cos theta - 1)` (Sim) equals `a*cos theta - a` (updated) at every
sample, and the y components are identical. -/
theorem transfer_arc_files_agree (i : ℕ) :
    x_transfer_sim i = x_transfer i ∧ y_transfer_sim i = y_transfer i := by
  constructor
  · unfold x_transfer_sim x_transfer
    ring
  · rfl

/-- C4: `composeTrajectory` keeps the target's length and returns
exactly the transfer positions for indices before the intercept index,
and exactly the target positions from it on, for every index in range
(in particular at the boundary indices). -/
theorem composeTrajectory_selects (tr tg : List (ℝ × ℝ)) (idx : ℕ)
    (hlen : tr.length = tg.length) (i : ℕ) (hi : i < tg.length) :
    (composeTrajectory tr tg idx).length = tg.length ∧
      (i < idx → (composeTrajectory tr tg idx).getD i (0, 0) = tr.getD i (0, 0)) ∧
      (idx ≤ i → (composeTrajectory tr tg idx).getD i (0, 0) = tg.getD i (0, 0)) := by
  refine ⟨by simp [composeTrajectory], ?_, ?_⟩
  · intro hlt
    rw [composeTrajectory, getD_range_map _ _ _ _ hi, if_pos hlt]
  · intro hge
    rw [composeTrajectory, getD_range_map _ _ _ _ hi, if_neg (by omega)]

/-- Witness for C4 on two concrete two-element sequences with
intercept index 1, checked at index 0 (transfer branch) and via a
second application at index 1 (target branch). -/
theorem composeTrajectory_selects_witness :
    ([((1:ℝ),(2:ℝ)), (3,4)] : List (ℝ × ℝ)).length =
        ([((5:ℝ),(6:ℝ)), (7,8)] : List (ℝ × ℝ)).length ∧
      (0 < 2 ∧ 1 < 2) ∧
      (composeTrajectory [((1:ℝ),(2:ℝ)), (3,4)] [((5:ℝ),(6:ℝ)), (7,8)] 1).getD 0 (0, 0) =
        ([((1:ℝ),(2:ℝ)), (3,4)] : List (ℝ × ℝ)).getD 0 (0, 0) ∧
      (composeTrajectory [((1:ℝ),(2:ℝ)), (3,4)] [((5:ℝ),(6:ℝ)), (7,8)] 1).getD 1 (0, 0) =
        ([((5:ℝ),(6:ℝ)), (7,8)] : List (ℝ × ℝ)).getD 1 (0, 0) :=
  ⟨by simp, ⟨by norm_num, by norm_num⟩,
    ((composeTrajectory_selects [((1:ℝ),(2:ℝ)), (3,4)] [((5:ℝ),(6:ℝ)), (7,8)] 1
        (by simp) 0 (by simp)).2.1 (by norm_num)),
    ((composeTrajectory_selects [((1:ℝ),(2:ℝ)), (3,4)] [((5:ℝ),(6:ℝ)), (7,8)] 1
        (by simp) 1 (by simp)).2.2 (by norm_num))⟩

/-- C2: `findClosestApproach` fails with `emptySequenceError` whenever
either input sequence is empty, fails with `lengthMismatchError`
whenever both are nonempty but of different lengths, and returns an
index exactly when both inputs are nonempty and of equal length. -/
theorem findClosestApproach_validation :
    (∀ xs ys : List (ℝ × ℝ), xs.length = 0 ∨ ys.length = 0 →
        findClosestApproach xs ys = .error .emptySequenceError) ∧
      (∀ xs ys : List (ℝ × ℝ), xs.length ≠ 0 → ys.length ≠ 0 →
        xs.length ≠ ys.length →
        findClosestApproach xs ys = .error .lengthMismatchError) ∧
      (∀ (xs ys : List (ℝ × ℝ)) (k : ℕ), findClosestApproach xs ys = .ok k →
        xs.length ≠ 0 ∧ ys.length ≠ 0 ∧ xs.length = ys.length) ∧
      (∀ xs ys : List (ℝ × ℝ), xs.length ≠ 0 → ys.length ≠ 0 →
        xs.length = ys.length → ∃ k, findClosestApproach xs ys = .ok k) := by
  refine ⟨?_, ?_, ?_, ?_⟩
  · intro xs ys h
    unfold findClosestApproach
    rw [if_pos h]
  · intro xs ys h1 h2 h3
    unfold findClosestApproach
    rw [if_neg (by tauto), if_pos h3]
  · intro xs ys k hk
    have h := (findClosestApproach_ok_iff xs ys k).mp hk
    exact ⟨h.1, h.2.1, h.2.2.1⟩
  · intro xs ys h1 h2 h3
    exact ⟨argminIdx (List.zipWith dist2 xs ys),
      (findClosestApproach_ok_iff xs ys _).mpr ⟨h1, h2, h3, rfl⟩⟩

/-- Witness for C2: the empty-input and mismatched-length failures at
concrete inputs. -/
theorem findClosestApproach_validation_witness :
    findClosestApproach [] [] = .error .emptySequenceError ∧
      findClosestApproach [((0:ℝ),(0:ℝ))] [((0:ℝ),(0:ℝ)), ((1:ℝ),(1:ℝ))] =
        .error .lengthMismatchError :=
  ⟨findClosestApproach_validation.1 [] [] (Or.inl rfl),
    findClosestApproach_validation.2.1 [((0:ℝ),(0:ℝ))]
      [((0:ℝ),(0:ℝ)), ((1:ℝ),(1:ℝ))] (by simp) (by simp) (by simp)⟩

/-- C5: `findClosestApproach` is a stable argmin: whenever it returns
index `k`, every index strictly below `k` has strictly larger
per-sample distance; consequently on two identical sequences it
returns index 0. -/
theorem findClosestApproach_stable :
    (∀ (xs ys : List (ℝ × ℝ)) (k : ℕ), findClosestApproach xs ys = .ok k →
        ∀ j, j < k →
          (List.zipWith dist2 xs ys).getD k 0 <
            (List.zipWith dist2 xs ys).getD j 0) ∧
      (∀ xs : List (ℝ × ℝ), xs ≠ [] → findClosestApproach xs xs = .ok 0) := by
  constructor
  · intro xs ys k hk j hj
    have h := (findClosestApproach_ok_iff xs ys k).mp hk
    rw [h.2.2.2] at hj ⊢
    exact getD_argminIdx_lt _ 0 j hj
  · intro xs hxs
    rw [findClosestApproach_ok_iff]
    refine ⟨?_, ?_, rfl, ?_⟩
    · simpa using hxs
    · simpa using hxs
    · rw [zipWith_dist2_self, argminIdx_replicate]

/-- Witness for C5: on the concrete one-point identical sequences the
returned index is 0. -/
theorem findClosestApproach_stable_witness :
    findClosestApproach [((0:ℝ),(0:ℝ))] [((0:ℝ),(0:ℝ))] = .ok 0 :=
  findClosestApproach_stable.2 [((0:ℝ),(0:ℝ))] (by simp)

/-- C10: the intercept index is a valid index for the 1000-sample
series (`intercept_idx <= 999`), and the frame-by-frame selection of
`animate` (transfer branch before it, target branch from it on) indexes
its source array in bounds for every frame `i < 1000`. -/
theorem intercept_index_safe :
    intercept_idx ≤ 999 ∧
      ∀ i, i < 1000 → (rocketPosOpt i).isSome = true := by
  have hlen : distList.length = 1000 := by simp [distList]
  have hne : distList ≠ [] := by
    intro h
    rw [h] at hlen
    simp at hlen
  have hlt : intercept_idx < 1000 := by
    have := argminIdx_lt_length distList hne
    rwa [hlen] at this
  refine ⟨by omega, ?_⟩
  intro i hi
  unfold rocketPosOpt
  have ht : transferShared.length = 1000 := by simp [transferShared]
  have hm : marsPositions.length = 1000 := by simp [marsPositions]
  split
  · rw [List.get?_eq_get (by omega)]
    rfl
  · rw [List.get?_eq_get (by omega)]
    rfl

/-- Witness for C10 at the concrete frame `i = 0`. -/
theorem intercept_index_safe_witness :
    (0:ℕ) < 1000 ∧ (rocketPosOpt 0).isSome = true :=
  ⟨by norm_num, intercept_index_safe.2 0 (by norm_num)⟩

theorem T_mars_pos : 0 < T_mars := by
  unfold T_mars grav M_sun r_mars_orbit
  have h : (0:ℝ) < (2.279e11 : ℝ) ^ 3 / ((6.67430e-11 : ℝ) * 1.989e30) := by
    norm_num
  have hπ := Real.pi_pos
  nlinarith [Real.sqrt_pos.mpr h]

theorem T_earth_pos : 0 < T_earth := by
  unfold T_earth grav M_sun r_earth_orbit
  have h : (0:ℝ) < (1.496e11 : ℝ) ^ 3 / ((6.67430e-11 : ℝ) * 1.989e30) := by
    norm_num
  have hπ := Real.pi_pos
  nlinarith [Real.sqrt_pos.mpr h]

theorem tSample_zero : tSample 0 = 0 := by
  unfold tSample
  norm_num

theorem x_earth_0 : x_earth 0 = r_earth_orbit := by
  unfold x_earth theta_earth
  rw [tSample_zero]
  norm_num

theorem y_earth_0 : y_earth 0 = 0 := by
  unfold y_earth theta_earth
  rw [tSample_zero]
  norm_num

theorem sQ_ge : (1.32674066 : ℝ) ≤ sQ :=
  (Real.le_sqrt (by norm_num) (by norm_num)).mpr (by norm_num)

theorem sQ_le : sQ ≤ 1.32674069 := by
  have h := Real.sqrt_le_sqrt
    (show (94694109112 : ℝ) / 53796109375 ≤ (1.32674069 : ℝ) ^ 2 by norm_num)
  rwa [Real.sqrt_sq (by norm_num : (0:ℝ) ≤ 1.32674069)] at h

theorem sE_ge : (1.88026514 : ℝ) ≤ sE :=
  (Real.le_sqrt (by norm_num) (by norm_num)).mpr (by norm_num)

theorem sE_le : sE ≤ 1.88026517 := by
  have h := Real.sqrt_le_sqrt
    (show (11836763639 : ℝ) / 3348071936 ≤ (1.88026517 : ℝ) ^ 2 by norm_num)
  rwa [Real.sqrt_sq (by norm_num : (0:ℝ) ≤ 1.88026517)] at h

theorem theta_transfer_eq (i : ℕ) :
    theta_transfer i = 2 * π * sQ * i / 999 := by
  unfold theta_transfer tSample T_mars sQ
  rw [show Real.sqrt (grav * M_sun / a_transfer ^ 3) *
        (2 * π * Real.sqrt (r_mars_orbit ^ 3 / (grav * M_sun)) * i / 999) =
      2 * π * (Real.sqrt (grav * M_sun / a_transfer ^ 3) *
        Real.sqrt (r_mars_orbit ^ 3 / (grav * M_sun))) * i / 999 from by ring]
  rw [← Real.sqrt_mul
    (show (0:ℝ) ≤ grav * M_sun / a_transfer ^ 3 by
      unfold grav M_sun a_transfer r_earth_orbit r_mars_orbit; norm_num)]
  rw [show grav * M_sun / a_transfer ^ 3 * (r_mars_orbit ^ 3 / (grav * M_sun)) =
      (94694109112 : ℝ) / 53796109375 from by
    unfold grav M_sun a_transfer r_earth_orbit r_mars_orbit; norm_num]

theorem theta_mars_eq (i : ℕ) :
    theta_mars i = π * (2 * i / 999) + π * (179 / 720) := by
  have hT : T_mars ≠ 0 := ne_of_gt T_mars_pos
  unfold theta_mars tSample deg2rad
  field_simp
  ring

theorem theta_earth_999 : theta_earth 999 = 2 * π * sE := by
  have hC : (0:ℝ) < r_earth_orbit ^ 3 / (grav * M_sun) := by
    unfold grav M_sun r_earth_orbit; norm_num
  have hB : (0:ℝ) ≤ r_mars_orbit ^ 3 / (grav * M_sun) := by
    unfold grav M_sun r_mars_orbit; norm_num
  have hsC : 0 < Real.sqrt (r_earth_orbit ^ 3 / (grav * M_sun)) :=
    Real.sqrt_pos.mpr hC
  unfold theta_earth tSample T_earth T_mars sE
  rw [show (11836763639 : ℝ) / 3348071936 =
      r_mars_orbit ^ 3 / (grav * M_sun) / (r_earth_orbit ^ 3 / (grav * M_sun)) from by
    unfold grav M_sun r_earth_orbit r_mars_orbit; norm_num]
  rw [Real.sqrt_div hB]
  have hπ : π ≠ 0 := Real.pi_ne_zero
  field_simp
  ring

theorem cos_interval {x lo hi : ℝ} (h1 : lo ≤ x) (h2 : x ≤ hi)
    (h0 : 0 ≤ lo) (hhi : hi ≤ 1) :
    1 - hi ^ 2 / 2 - hi ^ 4 * (5 / 96) ≤ Real.cos x ∧
      Real.cos x ≤ 1 - lo ^ 2 / 2 + hi ^ 4 * (5 / 96) := by
  have hx0 : 0 ≤ x := le_trans h0 h1
  have hxabs : |x| ≤ 1 := abs_le.mpr ⟨by linarith, by linarith⟩
  have hb := Real.cos_bound hxabs
  rw [abs_le] at hb
  have hx4 : |x| ^ 4 = x ^ 4 := by
    rw [← abs_pow, abs_of_nonneg (by positivity)]
  rw [hx4] at hb
  have hsq1 : lo ^ 2 ≤ x ^ 2 := pow_le_pow_left h0 h1 2
  have hsq2 : x ^ 2 ≤ hi ^ 2 := pow_le_pow_left hx0 h2 2
  have hq : x ^ 4 ≤ hi ^ 4 := pow_le_pow_left hx0 h2 4
  have hq0 : 0 ≤ x ^ 4 := by positivity
  constructor
  · linarith [hb.1]
  · linarith [hb.2]

theorem sin_interval {x lo hi : ℝ} (h1 : lo ≤ x) (h2 : x ≤ hi)
    (h0 : 0 ≤ lo) (hhi : hi ≤ 1) :
    lo - hi ^ 3 / 6 - hi ^ 4 * (5 / 96) ≤ Real.sin x ∧
      Real.sin x ≤ hi - lo ^ 3 / 6 + hi ^ 4 * (5 / 96) := by
  have hx0 : 0 ≤ x := le_trans h0 h1
  have hxabs : |x| ≤ 1 := abs_le.mpr ⟨by linarith, by linarith⟩
  have hb := Real.sin_bound hxabs
  rw [abs_le] at hb
  have hx4 : |x| ^ 4 = x ^ 4 := by
    rw [← abs_pow, abs_of_nonneg (by positivity)]
  rw [hx4] at hb
  have hc1 : lo ^ 3 ≤ x ^ 3 := pow_le_pow_left h0 h1 3
  have hc2 : x ^ 3 ≤ hi ^ 3 := pow_le_pow_left hx0 h2 3
  have hq : x ^ 4 ≤ hi ^ 4 := pow_le_pow_left hx0 h2 4
  have hq0 : 0 ≤ x ^ 4 := by positivity
  constructor
  · linarith [hb.1]
  · linarith [hb.2]

theorem tt388_offset_bounds :
    (0.09607401 : ℝ) ≤ theta_transfer 388 - π ∧
      theta_transfer 388 - π ≤ 0.09607431 := by
  rw [theta_transfer_eq 388]
  push_cast
  have hπ1 := Real.pi_gt_d6
  have hπ2 := Real.pi_lt_d6
  have hs1 := sQ_ge
  have hs2 := sQ_le
  constructor
  · nlinarith [mul_nonneg (by linarith : (0:ℝ) ≤ π - 3.141592)
      (by linarith : (0:ℝ) ≤ sQ - 1.32674066)]
  · nlinarith [mul_nonneg (by linarith : (0:ℝ) ≤ 3.141593 - π)
      (by linarith : (0:ℝ) ≤ 1.32674069 - sQ)]

theorem tm388_offset_bounds :
    (0.07975837 : ℝ) ≤ theta_mars 388 - π ∧
      theta_mars 388 - π ≤ 0.07975842 := by
  rw [theta_mars_eq 388]
  push_cast
  have hπ1 := Real.pi_gt_d6
  have hπ2 := Real.pi_lt_d6
  constructor
  · nlinarith
  · nlinarith

theorem cos_tt388 :
    -(0.9953894 : ℝ) ≤ Real.cos (theta_transfer 388) ∧
      Real.cos (theta_transfer 388) ≤ -(0.9953803 : ℝ) := by
  have hU := tt388_offset_bounds
  have hI := cos_interval hU.1 hU.2 (by norm_num) (by norm_num)
  have hid : theta_transfer 388 = π + (theta_transfer 388 - π) := by ring
  rw [hid, Real.cos_add, Real.cos_pi, Real.sin_pi]
  constructor
  · nlinarith [hI.2]
  · nlinarith [hI.1]

theorem sin_tt388 :
    -(0.0959311 : ℝ) ≤ Real.sin (theta_transfer 388) ∧
      Real.sin (theta_transfer 388) ≤ -(0.0959217 : ℝ) := by
  have hU := tt388_offset_bounds
  have hI := sin_interval hU.1 hU.2 (by norm_num) (by norm_num)
  have hid : theta_transfer 388 = π + (theta_transfer 388 - π) := by ring
  rw [hid, Real.sin_add, Real.cos_pi, Real.sin_pi]
  constructor
  · nlinarith [hI.2]
  · nlinarith [hI.1]

theorem cos_tm388 :
    -(0.9968216 : ℝ) ≤ Real.cos (theta_mars 388) ∧
      Real.cos (theta_mars 388) ≤ -(0.9968166 : ℝ) := by
  have hV := tm388_offset_bounds
  have hI := cos_interval hV.1 hV.2 (by norm_num) (by norm_num)
  have hid : theta_mars 388 = π + (theta_mars 388 - π) := by ring
  rw [hid, Real.cos_add, Real.cos_pi, Real.sin_pi]
  constructor
  · nlinarith [hI.2]
  · nlinarith [hI.1]

theorem sin_tm388 :
    -(0.0796761 : ℝ) ≤ Real.sin (theta_mars 388) ∧
      Real.sin (theta_mars 388) ≤ -(0.0796716 : ℝ) := by
  have hV := tm388_offset_bounds
  have hI := sin_interval hV.1 hV.2 (by norm_num) (by norm_num)
  have hid : theta_mars 388 = π + (theta_mars 388 - π) := by ring
  rw [hid, Real.sin_add, Real.cos_pi, Real.sin_pi]
  constructor
  · nlinarith [hI.2]
  · nlinarith [hI.1]

theorem dist388_lt : distances_to_mars 388 < 1000000000 := by
  unfold distances_to_mars x_transfer x_mars y_transfer y_mars
  rw [x_earth_0, y_earth_0]
  have hct := cos_tt388
  have hst := sin_tt388
  have hcm := cos_tm388
  have hsm := sin_tm388
  rw [show (1000000000 : ℝ) = Real.sqrt (1000000000 ^ 2) from
    (Real.sqrt_sq (by norm_num)).symm]
  apply Real.sqrt_lt_sqrt (by positivity)
  have hdx1 : -(300000000 : ℝ) ≤ a_transfer * Real.cos (theta_transfer 388) -
      a_transfer + r_earth_orbit - r_mars_orbit * Real.cos (theta_mars 388) := by
    unfold a_transfer r_earth_orbit r_mars_orbit
    nlinarith [hct.1, hcm.2]
  have hdx2 : a_transfer * Real.cos (theta_transfer 388) - a_transfer +
      r_earth_orbit - r_mars_orbit * Real.cos (theta_mars 388) ≤ 300000000 := by
    unfold a_transfer r_earth_orbit r_mars_orbit
    nlinarith [hct.2, hcm.1]
  have hdy1 : -(300000000 : ℝ) ≤ a_transfer * Real.sin (theta_transfer 388) + 0 -
      r_mars_orbit * Real.sin (theta_mars 388) := by
    unfold a_transfer r_earth_orbit r_mars_orbit
    nlinarith [hst.1, hsm.2]
  have hdy2 : a_transfer * Real.sin (theta_transfer 388) + 0 -
      r_mars_orbit * Real.sin (theta_mars 388) ≤ 300000000 := by
    unfold a_transfer r_earth_orbit r_mars_orbit
    nlinarith [hst.2, hsm.1]
  nlinarith [hdx1, hdx2, hdy1, hdy2]

theorem tm0_bounds :
    (0.7810346 : ℝ) ≤ theta_mars 0 ∧ theta_mars 0 ≤ 0.7810350 := by
  rw [theta_mars_eq 0]
  push_cast
  have hπ1 := Real.pi_gt_d6
  have hπ2 := Real.pi_lt_d6
  constructor
  · nlinarith
  · nlinarith

theorem sin_tm0_lb : (0.68222 : ℝ) ≤ Real.sin (theta_mars 0) := by
  have hV := tm0_bounds
  have hI := sin_interval hV.1 hV.2 (by norm_num) (by norm_num)
  nlinarith [hI.1]

theorem cos_tm0_lb : (0.67559 : ℝ) ≤ Real.cos (theta_mars 0) := by
  have hV := tm0_bounds
  have hI := cos_interval hV.1 hV.2 (by norm_num) (by norm_num)
  nlinarith [hI.1]

theorem tt0_eq : theta_transfer 0 = 0 := by
  rw [theta_transfer_eq]
  push_cast
  ring

theorem dist0_ge : (1000000000 : ℝ) ≤ distances_to_mars 0 := by
  unfold distances_to_mars x_transfer x_mars y_transfer y_mars
  rw [x_earth_0, y_earth_0, tt0_eq]
  rw [Real.cos_zero, Real.sin_zero]
  have hsm := sin_tm0_lb
  have hdy : r_mars_orbit * Real.sin (theta_mars 0) ≥ 1000000000 := by
    unfold r_mars_orbit
    nlinarith
  apply (Real.le_sqrt (by norm_num) (by positivity)).mpr
  nlinarith [sq_nonneg (a_transfer * 1 - a_transfer + r_earth_orbit -
    r_mars_orbit * Real.cos (theta_mars 0))]

theorem tt999_eq : theta_transfer 999 = 2 * π * sQ := by
  rw [theta_transfer_eq]
  push_cast
  ring_nf

theorem cos_tt999_nonpos : Real.cos (theta_transfer 999) ≤ 0 := by
  rw [tt999_eq, show 2 * π * sQ = 2 * π * sQ - 2 * π + 2 * π from by ring,
    Real.cos_add_two_pi]
  have hπ1 := Real.pi_gt_d6
  have hπ2 := Real.pi_lt_d6
  have hs1 := sQ_ge
  have hs2 := sQ_le
  apply Real.cos_nonpos_of_pi_div_two_le_of_le
  · nlinarith [mul_nonneg (by linarith : (0:ℝ) ≤ π - 3.141592)
      (by linarith : (0:ℝ) ≤ sQ - 1.32674066)]
  · nlinarith [mul_nonneg (by linarith : (0:ℝ) ≤ 3.141593 - π)
      (by linarith : (0:ℝ) ≤ 1.32674069 - sQ)]

theorem sin_tt999_pos : 0 < Real.sin (theta_transfer 999) := by
  rw [tt999_eq, show 2 * π * sQ = 2 * π * sQ - 2 * π + 2 * π from by ring,
    Real.sin_add_two_pi]
  have hπ1 := Real.pi_gt_d6
  have hπ2 := Real.pi_lt_d6
  have hs1 := sQ_ge
  have hs2 := sQ_le
  apply Real.sin_pos_of_pos_of_lt_pi
  · nlinarith [mul_nonneg (by linarith : (0:ℝ) ≤ π - 3.141592)
      (by linarith : (0:ℝ) ≤ sQ - 1.32674066)]
  · nlinarith [mul_nonneg (by linarith : (0:ℝ) ≤ 3.141593 - π)
      (by linarith : (0:ℝ) ≤ 1.32674069 - sQ)]

theorem sin_te999_neg : Real.sin (theta_earth 999) < 0 := by
  rw [theta_earth_999,
    show 2 * π * sE = 2 * π * sE - 2 * π - 2 * π + 2 * π + 2 * π from by ring,
    Real.sin_add_two_pi, Real.sin_add_two_pi]
  have hπ1 := Real.pi_gt_d6
  have hπ2 := Real.pi_lt_d6
  have hs1 := sE_ge
  have hs2 := sE_le
  apply Real.sin_neg_of_neg_of_neg_pi_lt
  · nlinarith [mul_nonneg (by linarith : (0:ℝ) ≤ π - 3.141592)
      (by linarith : (0:ℝ) ≤ 2 - sE)]
  · nlinarith [mul_nonneg (by linarith : (0:ℝ) ≤ 3.141593 - π)
      (by linarith : (0:ℝ) ≤ 2 - sE)]

theorem cos_te999_pos : 0 < Real.cos (theta_earth 999) := by
  rw [theta_earth_999,
    show 2 * π * sE = 2 * π * sE - 2 * π - 2 * π + 2 * π + 2 * π from by ring,
    Real.cos_add_two_pi, Real.cos_add_two_pi]
  have hπ1 := Real.pi_gt_d6
  have hπ2 := Real.pi_lt_d6
  have hs1 := sE_ge
  have hs2 := sE_le
  apply Real.cos_pos_of_le_one
  rw [abs_le]
  constructor
  · nlinarith [mul_nonneg (by linarith : (0:ℝ) ≤ π - 3.141592)
      (by linarith : (0:ℝ) ≤ 2 - sE)]
  · nlinarith [mul_nonneg (by linarith : (0:ℝ) ≤ 3.141593 - π)
      (by linarith : (0:ℝ) ≤ 2 - sE)]

theorem tm999_eq : theta_mars 999 = theta_mars 0 + 2 * π := by
  rw [theta_mars_eq 999, theta_mars_eq 0]
  push_cast
  ring_nf

theorem sin_tm999_pos : 0 < Real.sin (theta_mars 999) := by
  rw [tm999_eq, Real.sin_add_two_pi]
  have hV := tm0_bounds
  have hπ1 := Real.pi_gt_d6
  exact Real.sin_pos_of_pos_of_lt_pi (by linarith [hV.1]) (by linarith [hV.2])

theorem cos_tm999_lb : (0.67559 : ℝ) ≤ Real.cos (theta_mars 999) := by
  rw [tm999_eq, Real.cos_add_two_pi]
  exact cos_tm0_lb

theorem dist999_ge : (1000000000 : ℝ) ≤ distances_to_mars 999 := by
  unfold distances_to_mars x_transfer x_mars y_transfer y_mars
  rw [x_earth_0, y_earth_0]
  have hct := cos_tt999_nonpos
  have hcm := cos_tm999_lb
  have hdx : a_transfer * Real.cos (theta_transfer 999) - a_transfer +
      r_earth_orbit - r_mars_orbit * Real.cos (theta_mars 999) ≤
        -(1000000000 : ℝ) := by
    unfold a_transfer r_earth_orbit r_mars_orbit
    nlinarith
  apply (Real.le_sqrt (by norm_num) (by positivity)).mpr
  nlinarith [sq_nonneg (a_transfer * Real.sin (theta_transfer 999) + 0 -
    r_mars_orbit * Real.sin (theta_mars 999))]

theorem distList_getD (i : ℕ) (hi : i < 1000) :
    distList.getD i 0 = distances_to_mars i := by
  unfold distList
  exact getD_range_map 1000 distances_to_mars i 0 hi

theorem intercept_window :
    0 < intercept_idx ∧ intercept_idx < 999 ∧
      distances_to_mars intercept_idx < 1000000000 := by
  have hlen : distList.length = 1000 := by simp [distList]
  have hne : distList ≠ [] := by
    intro h
    rw [h] at hlen
    simp at hlen
  have hlt : intercept_idx < 1000 := by
    have := argminIdx_lt_length distList hne
    rwa [hlen] at this
  have hmin : distList.getD intercept_idx 0 ≤ distList.getD 388 0 :=
    argminIdx_getD_le distList 0 388 (by rw [hlen]; norm_num)
  rw [distList_getD 388 (by norm_num), distList_getD intercept_idx hlt] at hmin
  have hval : distances_to_mars intercept_idx < 1000000000 :=
    lt_of_le_of_lt hmin dist388_lt
  have hpos : 0 < intercept_idx := by
    rcases Nat.eq_zero_or_pos intercept_idx with h0 | h
    · rw [h0] at hval
      linarith [dist0_ge]
    · exact h
  have hlt999 : intercept_idx < 999 := by
    by_contra hcon
    have h999 : intercept_idx = 999 := by omega
    have hfirst := getD_argminIdx_lt distList 0 388
      (show 388 < argminIdx distList from by
        rw [show argminIdx distList = intercept_idx from rfl, h999]
        norm_num)
    rw [show argminIdx distList = intercept_idx from rfl, h999] at hfirst
    rw [distList_getD 999 (by norm_num), distList_getD 388 (by norm_num)] at hfirst
    linarith [dist999_ge, dist388_lt]
  exact ⟨hpos, hlt999, hval⟩

/-- C1: for the source configuration (r_inner 1.496e11, r_outer
2.279e11, central mass 1.989e30, G 6.67430e-11, 44.75-degree phase
offset, 1000 samples over one outer period) the intercept index is
strictly between 0 and 999, and the separation distance at the
intercept index is below 1e9 meters. -/
theorem intercept_in_range :
    0 < intercept_idx ∧ intercept_idx < 999 ∧
      distances_to_mars intercept_idx < 1000000000 :=
  intercept_window

theorem composed_getD (i : ℕ) (hi : i < 1000) :
    (composeTrajectory transferShared marsPositions intercept_idx).getD i (0, 0) =
      rocketPos i := by
  have hm : marsPositions.length = 1000 := by simp [marsPositions]
  unfold composeTrajectory rocketPos
  rw [hm, getD_range_map 1000 _ i (0, 0) hi]
  by_cases h : i < intercept_idx
  · rw [if_pos h, if_pos h]
    unfold transferShared
    rw [getD_range_map 1000 _ i (0, 0) hi]
  · rw [if_neg h, if_neg h]
    unfold marsPositions
    rw [getD_range_map 1000 _ i (0, 0) hi]

/-- C3 (amended): for every sample `i` of the grid, the animation's
per-frame telemetry equals the claimed formulas on the composed rocket
trajectory: the bearing angle is `atan2(dy, dx)` in degrees and the
distance is `sqrt(dx^2 + dy^2)` with `(dx, dy)` the composed position
minus the inner body's position; the `rocket_distances` series also
matches this distance formula; but the post-hoc `angles` series is
guaranteed to match the composed-trajectory formula only for
`i < intercept_idx` (it always uses the raw transfer trajectory). -/
theorem animate_telemetry_composed (i : ℕ) (hi : i < 1000) :
    (animateAngle i =
        arctan2
          (((composeTrajectory transferShared marsPositions intercept_idx).getD i (0, 0)).2 -
            y_earth i)
          (((composeTrajectory transferShared marsPositions intercept_idx).getD i (0, 0)).1 -
            x_earth i) * (180 / π)) ∧
      (animateDistance i =
        Real.sqrt
          ((((composeTrajectory transferShared marsPositions intercept_idx).getD i (0, 0)).1 -
              x_earth i) ^ 2 +
            (((composeTrajectory transferShared marsPositions intercept_idx).getD i (0, 0)).2 -
              y_earth i) ^ 2)) ∧
      (rocketDistancesAt i =
        Real.sqrt
          ((((composeTrajectory transferShared marsPositions intercept_idx).getD i (0, 0)).1 -
              x_earth i) ^ 2 +
            (((composeTrajectory transferShared marsPositions intercept_idx).getD i (0, 0)).2 -
              y_earth i) ^ 2)) ∧
      (i < intercept_idx →
        anglesAt i =
          arctan2
            (((composeTrajectory transferShared marsPositions intercept_idx).getD i (0, 0)).2 -
              y_earth i)
            (((composeTrajectory transferShared marsPositions intercept_idx).getD i (0, 0)).1 -
              x_earth i) * (180 / π)) := by
  rw [composed_getD i hi]
  refine ⟨rfl, rfl, ?_, ?_⟩
  · unfold rocketDistancesAt rocketPos intercept_idx
    by_cases h : i < argminIdx distList
    · rw [if_pos h, if_pos h, if_pos h]
    · rw [if_neg h, if_neg h, if_neg h]
  · intro h
    unfold anglesAt rocketPos
    rw [if_pos h]

/-- Witness for the amended C3 at the concrete sample `i = 0`. -/
theorem animate_telemetry_composed_witness :
    animateDistance 0 =
      Real.sqrt
        ((((composeTrajectory transferShared marsPositions intercept_idx).getD 0 (0, 0)).1 -
            x_earth 0) ^ 2 +
          (((composeTrajectory transferShared marsPositions intercept_idx).getD 0 (0, 0)).2 -
            y_earth 0) ^ 2) :=
  (animate_telemetry_composed 0 (by norm_num)).2.1

theorem arctan2_lt_pi_div_two_of_pos {y x : ℝ} (hx : 0 < x) :
    arctan2 y x < π / 2 := by
  unfold arctan2
  rw [if_pos hx]
  exact Real.arctan_lt_pi_div_two _

theorem pi_div_two_lt_arctan2 {y x : ℝ} (hy : 0 ≤ y) (hx : x < 0) :
    π / 2 < arctan2 y x := by
  unfold arctan2
  rw [if_neg (by linarith), if_pos hx, if_pos hy]
  have h := Real.neg_pi_div_two_lt_arctan (y / x)
  linarith

/-- C3 counterexample: at sample 999 (which lies at or beyond the
intercept index) the `angles` series value, computed from the raw
transfer trajectory, differs from `atan2(dy, dx)` in degrees taken on
the composed rocket trajectory minus the inner body. -/
theorem angles_series_not_composed :
    anglesAt 999 ≠
      arctan2
        (((composeTrajectory transferShared marsPositions intercept_idx).getD 999 (0, 0)).2 -
          y_earth 999)
        (((composeTrajectory transferShared marsPositions intercept_idx).getD 999 (0, 0)).1 -
          x_earth 999) * (180 / π) := by
  rw [composed_getD 999 (by norm_num)]
  have hlen : distList.length = 1000 := by simp [distList]
  have hne : distList ≠ [] := by
    intro h
    rw [h] at hlen
    simp at hlen
  have hlt : intercept_idx < 1000 := by
    have := argminIdx_lt_length distList hne
    rwa [hlen] at this
  unfold rocketPos
  rw [if_neg (by omega)]
  unfold anglesAt
  rw [show ((x_mars 999, y_mars 999) : ℝ × ℝ).2 = y_mars 999 from rfl,
    show ((x_mars 999, y_mars 999) : ℝ × ℝ).1 = x_mars 999 from rfl]
  have hdyT : 0 < y_transfer 999 + y_earth 0 - y_earth 999 := by
    rw [y_earth_0]
    unfold y_transfer y_earth
    have h1 := sin_tt999_pos
    have h2 := sin_te999_neg
    unfold a_transfer r_earth_orbit r_mars_orbit
    nlinarith
  have hdxT : x_transfer 999 + x_earth 0 - x_earth 999 < 0 := by
    rw [x_earth_0]
    unfold x_transfer x_earth
    have h1 := cos_tt999_nonpos
    have h2 := cos_te999_pos
    unfold a_transfer r_earth_orbit r_mars_orbit
    nlinarith
  have hdyC : 0 < y_mars 999 - y_earth 999 := by
    unfold y_mars y_earth
    have h1 := sin_tm999_pos
    have h2 := sin_te999_neg
    unfold r_earth_orbit r_mars_orbit
    nlinarith
  have hdxC : 0 < x_mars 999 - x_earth 999 := by
    unfold x_mars x_earth
    have h1 := cos_tm999_lb
    have h2 := Real.cos_le_one (theta_earth 999)
    unfold r_earth_orbit r_mars_orbit
    nlinarith
  have hA : π / 2 <
      arctan2 (y_transfer 999 + y_earth 0 - y_earth 999)
        (x_transfer 999 + x_earth 0 - x_earth 999) :=
    pi_div_two_lt_arctan2 (le_of_lt hdyT) hdxT
  have hB : arctan2 (y_mars 999 - y_earth 999) (x_mars 999 - x_earth 999) <
      π / 2 :=
    arctan2_lt_pi_div_two_of_pos hdxC
  have hπ := Real.pi_pos
  have hc : (0:ℝ) < 180 / π := by positivity
  intro heq
  have hmul := mul_right_cancel₀ (ne_of_gt hc) heq
  linarith

end Hohmann
